import Mathlib

/-!
Verification development for `traceroute_history.py` (traceroute_history, v0.2.0).

The Python source is shallowly embedded: pure helpers become Lean functions,
database-touching functions become explicit functions on the per-target
snapshot log (a list in insertion order, ascending autoincrement id, as
guaranteed by the SQL layer), and Python exceptions become `Option`/`Except`
values.  `trparse.loads` (an external parsing library) is kept abstract as a
parameter `parse : String → ParsedTrace`; it is a deterministic pure function,
so identical raw texts always yield identical parses.
-/

namespace TracerouteHistory

/-- One probe reply inside a hop, as produced by `trparse`.  `ip` is the
resolved address, or `none` for an unresolved / timed-out probe (Python
`None`; note `None == None` is `True` in Python, matching `Option` equality). -/
structure Probe where
  ip : Option String
deriving DecidableEq, Repr

/-- One hop of a parsed traceroute: an ordered list of probe replies. -/
structure Hop where
  probes : List Probe
deriving DecidableEq, Repr

/-- A parsed traceroute (`trparse` trace object): the ordered hop list. -/
structure ParsedTrace where
  hops : List Hop
deriving DecidableEq, Repr

/-- The first-probe address of hop `i`, when hop `i` exists and has at least
one probe: `hops[i].probes[0].ip`.  `none` models the `IndexError` cases. -/
def firstProbeIp (t : ParsedTrace) (i : Nat) : Option (Option String) :=
  (t.hops[i]?).bind (fun h => h.probes.head?.map (fun p => p.ip))

/-- The loop body of `diff_traceroutes` (lines 73-78): index `i` is appended
exactly when `tr1_object.hops[index].probes[0].ip == tr2_object.hops[index].probes[0].ip`
is false, or when evaluating either side raises `IndexError` (hop missing at
`i`, or hop present with an empty probe list). -/
def hopDiffAt (a b : ParsedTrace) (i : Nat) : Bool :=
  match firstProbeIp a i, firstProbeIp b i with
  | some p, some q => decide (p ≠ q)
  | _, _ => true

/-- Function `diff_traceroutes` on already-parsed traces (lines 68-80): iterate
`index` over `range (max len1 len2)` and collect the differing indices in
increasing order. -/
def diffParsed (a b : ParsedTrace) : List Nat :=
  (List.range (max a.hops.length b.hops.length)).filter (fun i => hopDiffAt a b i)

/-- Function `diff_traceroutes(tr1, tr2)` (lines 57-80): parse both raw texts with
`trparse.loads`, then compare hop by hop. -/
def diffTraceroutes (parse : String → ParsedTrace) (tr1 tr2 : String) : List Nat :=
  diffParsed (parse tr1) (parse tr2)

/-- Every hop of the trace carries at least one probe.  `trparse` produces one
probe entry per reply column of a hop line (timed-out probes included, with
`ip = None`), so every trace parsed from raw traceroute text satisfies this. -/
def WellFormedTrace (t : ParsedTrace) : Prop :=
  ∀ h ∈ t.hops, h.probes ≠ []

instance (t : ParsedTrace) : Decidable (WellFormedTrace t) := by
  unfold WellFormedTrace; infer_instance

lemma mem_diffParsed (a b : ParsedTrace) (i : Nat) :
    i ∈ diffParsed a b ↔
      i < max a.hops.length b.hops.length ∧ hopDiffAt a b i = true := by
  simp [diffParsed, List.mem_filter, List.mem_range, and_comm]

lemma firstProbeIp_isSome_of_wf {t : ParsedTrace} (hwf : WellFormedTrace t)
    {i : Nat} (hi : i < t.hops.length) : (firstProbeIp t i).isSome := by
  rcases List.head?_eq_head (l := (t.hops[i]).probes)
      (hwf _ (List.getElem_mem hi)) with h
  simp [firstProbeIp, List.getElem?_eq_getElem hi, h]

lemma firstProbeIp_eq_none_of_ge {t : ParsedTrace} {i : Nat}
    (hi : t.hops.length ≤ i) : firstProbeIp t i = none := by
  simp [firstProbeIp, List.getElem?_eq_none hi]

/-! ### Python string helpers used by the renderer (`traceroutes_difference_formatted`) -/

/-- Python `line.split()` (no separator): split on runs of whitespace and
drop empty pieces. -/
def pySplitWs (s : String) : List String :=
  (s.split (fun c => c.isWhitespace)).filter (fun t => t ≠ "")

/-- Continuation of a decimal digit string for Python `int()`: after a first
digit, the remainder may interleave single underscores between digits
(`1_000` is accepted; leading, trailing or doubled underscores are not). -/
def pyDigitsRest : List Char → Bool
  | [] => true
  | '_' :: [] => false
  | '_' :: c :: rest => c.isDigit && pyDigitsRest rest
  | c :: rest => c.isDigit && pyDigitsRest rest

/-- A nonempty decimal digit string as accepted by Python `int()` after the
optional sign (ASCII digits; single underscores allowed between digits). -/
def pyDigitsOk : List Char → Bool
  | [] => false
  | c :: rest => c.isDigit && pyDigitsRest rest

/-- Numeric value of a digit-and-underscore string. -/
def pyDigitsVal (l : List Char) : Nat :=
  (l.filter (fun c => c ≠ '_')).foldl (fun a c => a * 10 + (c.toNat - 48)) 0

/-- Python `int(s)` on a `str`: strip surrounding whitespace, optional sign,
then a digit string; `none` models the `ValueError` raised otherwise. -/
def pyParseInt (s : String) : Option Int :=
  let l := ((s.toList.dropWhile Char.isWhitespace).reverse.dropWhile
      Char.isWhitespace).reverse
  match l with
  | '+' :: rest => if pyDigitsOk rest then some (pyDigitsVal rest) else none
  | '-' :: rest => if pyDigitsOk rest then some (-(pyDigitsVal rest : Int)) else none
  | rest => if pyDigitsOk rest then some (pyDigitsVal rest) else none

/-- Lines 110-115 of `_console_output`: `int(line.split()[0]) - 1`, with the
`except (TypeError, IndexError, ValueError)` collapse to `none`
(`IndexError` when the line has no token, `ValueError` when the first token
is not an integer; `TypeError` cannot occur on a `str`). -/
def lineIndex (line : String) : Option Int :=
  match pySplitWs line with
  | [] => none
  | tok :: _ => (pyParseInt tok).map (fun n => n - 1)

/-- One iteration of the `_console_output` loop (lines 108-119): a line whose
translated index is in `different_hops` is wrapped in `color … end_color`;
every other line, hop line or not, passes through unchanged; either way a
newline is appended. -/
def consoleOutputLine (differentHops : List Nat) (color endColor line : String) :
    String :=
  match lineIndex line with
  | none => line ++ "\n"
  | some idx =>
      if idx ∈ differentHops.map (fun d => (d : Int)) then
        color ++ line ++ endColor ++ "\n"
      else
        line ++ "\n"

/-- Function `_console_output(tr, color)` (lines 106-120): fold over `tr.split('\n')`
accumulating the per-line output into an initially empty string. -/
def consoleOutput (differentHops : List Nat) (color endColor tr : String) :
    String :=
  (tr.splitOn "\n").foldl
    (fun acc line => acc ++ consoleOutputLine differentHops color endColor line) ""

/-- A stored snapshot row (`Traceroute` in `sql_declaration`): autoincrement
primary key `id`, creation timestamp (modelled as an integer timeline whose
unit is one day, so `timedelta(days=d)` is just `d`), and the raw text. -/
structure Traceroute where
  id : Nat
  creation_date : Int
  traceroute : String
deriving DecidableEq, Repr

/-- Function `traceroutes_difference_formatted` (lines 83-127), with the colour
strings abstracted: diff the two stored raw texts, then emit the labelled
header and rendered body of each snapshot. -/
def traceroutesDifferenceFormatted (parse : String → ParsedTrace)
    (tr1 tr2 : Traceroute) (green red endColor : String) : String :=
  let differentHops := diffTraceroutes parse tr1.traceroute tr2.traceroute
  "Traceroute recorded at " ++ toString tr1.creation_date ++ ":\n" ++
    consoleOutput differentHops green endColor tr1.traceroute ++
  "Traceroute recorded at " ++ toString tr2.creation_date ++ ":\n" ++
    consoleOutput differentHops red endColor tr2.traceroute

/-- Specification-side description of a highlighted line: the line's first
whitespace-delimited token parses (per Python `int()`) as an integer `n`, and
the translated 0-based index `n - 1` is in the diff set. -/
def hopLineCond (differentHops : List Nat) (line : String) : Prop :=
  ∃ n : Int, (pySplitWs line).head?.bind pyParseInt = some n ∧
    n - 1 ∈ differentHops.map (fun d => (d : Int))

/-- Concatenation of per-line renderings; used to state that the accumulating
fold of `_console_output` processes each line independently. -/
def concatLines (f : String → String) (ls : List String) : String :=
  ls.foldr (fun line acc => f line ++ acc) ""

/-! ### Update policy (`update_traceroute_database`, lines 209-246) -/

/-- The snapshot-relevant effect of one `update_traceroute_database` call on
one target's snapshot log (raw texts in insertion order; the query
`order_by(Traceroute.id.desc()).first()` returns the last element).  `probe`
is the value `get_traceroute` returned: `none` on failure; `if current_trace:`
also treats an empty output string as falsy.  A snapshot is inserted when no
prior snapshot exists, or when `diff_traceroutes` on (last raw, new raw) is
non-empty (a non-empty Python list is truthy). -/
def updateTracerouteDatabase (parse : String → ParsedTrace)
    (snapshots : List String) (probe : Option String) : List String :=
  match probe with
  | none => snapshots
  | some raw =>
      if raw = "" then snapshots
      else
        match snapshots.getLast? with
        | none => snapshots ++ [raw]
        | some last =>
            if diffTraceroutes parse last raw = [] then snapshots
            else snapshots ++ [raw]

/-! ### Retention policy (`delete_old_traceroutes`, lines 303-328) -/

/-- Function `delete_old_traceroutes(name, days, keep)` acting on one target's rows
(insertion order, ascending `id`).  When more than `keep` rows exist, the
subquery selects the ids of rows with `creation_date < now - timedelta(days)`,
ordered by `id.desc()` — i.e. the reverse of insertion order — limited to
`num_records - keep`, and deletes the rows whose id is in that set.  The
second component is the Python return value: the function ends without a
`return` statement (and returns `None` explicitly when the target is
missing), so it is always `none`; the deleted count is only logged.
`doomedIds` below is the subquery of lines 323-326. -/
def doomedIds (records : List Traceroute) (now days : Int) (keep : Nat) :
    List Nat :=
  ((records.filter (fun r => decide (r.creation_date < now - days))).reverse.take
      (records.length - keep)).map (fun r => r.id)

/-- The delete step of `delete_old_traceroutes` (lines 319-327), acting on
one target's rows. -/
def deleteOldTraceroutes (records : List Traceroute) (now days : Int)
    (keep : Nat) : List Traceroute × Option Nat :=
  if keep < records.length then
    (records.filter
        (fun r => decide (r.id ∉ doomedIds records now days keep)), none)
  else
    (records, none)

/-! ### Smokeping secondary config (`read_smokeping_config`, lines 331-366) -/

/-- Shared shape of the two directive regexes: `^KEY\s*=\s*…`.  Returns the
characters after the `=` and the following whitespace run, or `none` when the
line does not start with `KEY`, optional whitespace and `=`.  Lines are the
file's lines without their trailing newline (Python `$` matches just before
a trailing newline, so this is equivalent). -/
def matchKeyVal (key : List Char) (line : String) : Option (List Char) :=
  let l := line.toList
  if key.isPrefixOf l then
    match (l.drop key.length).dropWhile Char.isWhitespace with
    | '=' :: r => some (r.dropWhile Char.isWhitespace)
    | _ => none
  else
    none

/-- Regex `host_regex = ^host\s*=\s*(\S*)$` (line 345): the captured group must be
a run of non-whitespace characters reaching the end of the line. -/
def matchHost (line : String) : Option String :=
  match matchKeyVal ['h', 'o', 's', 't'] line with
  | none => none
  | some r => if r.all (fun c => ¬ c.isWhitespace) then some r.asString else none

/-- Regex `title_regex = ^title\s*=\s*(.*)$` (line 346): `.` matches anything but a
newline, and lines contain no newline, so any remainder is captured. -/
def matchTitle (line : String) : Option String :=
  (matchKeyVal ['t', 'i', 't', 'l', 'e'] line).map List.asString

/-- Function `read_smokeping_config` on the file's lines (lines 348-366).  For each
line, `hosts` collects the host-regex match; for each title-matching line the
code appends `host` — the *host*-regex match of that same line, normally
`None` — to `names` (line 358 reads `names.append(host)`).  Both are modelled
as the captured string or `none`.  If the two lists' lengths differ the whole
source is rejected (`return None`); otherwise the zipped pairs are returned. -/
def readSmokepingConfig (lines : List String) :
    Option (List (Option String × Option String)) :=
  let hosts := (lines.filter (fun l => (matchHost l).isSome)).map matchHost
  let names := (lines.filter (fun l => (matchTitle l).isSome)).map matchHost
  if hosts.length = names.length then some (hosts.zip names) else none

/-- An entry of the mixed `hosts` list built in `execute` (lines 377-384):
either a `HOST_…` config section name, or a smokeping-derived pair. -/
inductive HostSpec where
  | section_ (name : String)
  | smoke (entry : Option String × Option String)
deriving DecidableEq, Repr

/-- Lines 382-384 of `execute`: `if smokeping_hosts: hosts = hosts +
smokeping_hosts` — both `None` and an empty list are falsy and leave the
target list unchanged. -/
def mergeHosts (base : List HostSpec)
    (smoke : Option (List (Option String × Option String))) : List HostSpec :=
  match smoke with
  | none => base
  | some l => if l.isEmpty then base else base ++ l.map HostSpec.smoke

/-! ### Interval parsing in `execute` (lines 393-400) -/

/-- A Python exception escaping the embedded fragment. -/
inductive PyErr where
  | keyError
  | valueError
  | typeError
deriving DecidableEq, Repr

/-- Lines 393-400: `interval = int(config['TRACEROUTE_HISTORY']['interval'])`
guarded by `except KeyError` and `except TypeError`, both falling back to
3600.  `value` is the config lookup result: `none` raises `KeyError`
(caught); a present value is always a `str` under `configparser`, so `int()`
raises `ValueError` on a non-integer string — an exception no handler
catches, which therefore escapes `execute` (the `TypeError` arm is
unreachable for string input). -/
def intervalOf (value : Option String) : Except PyErr Int :=
  match value with
  | none => Except.ok 3600
  | some s =>
      match pyParseInt s with
      | some n => Except.ok n
      | none => Except.error PyErr.valueError

/-! ### Helper lemmas -/

lemma firstProbeIp_ne_none_iff {t : ParsedTrace} (hwf : WellFormedTrace t)
    (i : Nat) : firstProbeIp t i = none ↔ t.hops.length ≤ i := by
  constructor
  · intro h
    by_contra hlt
    have hs := firstProbeIp_isSome_of_wf hwf (Nat.lt_of_not_le hlt)
    rw [h] at hs
    simp at hs
  · exact firstProbeIp_eq_none_of_ge

lemma hopDiffAt_iff {a b : ParsedTrace} (ha : WellFormedTrace a)
    (hb : WellFormedTrace b) (i : Nat) :
    hopDiffAt a b i = true ↔
      a.hops.length ≤ i ∨ b.hops.length ≤ i ∨
        firstProbeIp a i ≠ firstProbeIp b i := by
  unfold hopDiffAt
  cases hA : firstProbeIp a i with
  | none =>
      simp [(firstProbeIp_ne_none_iff ha i).mp hA]
  | some p =>
      cases hB : firstProbeIp b i with
      | none =>
          simp [(firstProbeIp_ne_none_iff hb i).mp hB]
      | some q =>
          have hla : ¬ a.hops.length ≤ i := fun hle => by
            rw [(firstProbeIp_ne_none_iff ha i).mpr hle] at hA
            exact Option.noConfusion hA
          have hlb : ¬ b.hops.length ≤ i := fun hle => by
            rw [(firstProbeIp_ne_none_iff hb i).mpr hle] at hB
            exact Option.noConfusion hB
          simp [hla, hlb]

/-- C4. Diff reflexivity: comparing a raw trace against an identical copy of
itself yields the empty difference list.  `trparse.loads` is deterministic,
so both sides parse to the same `ParsedTrace`; the well-formedness hypothesis
records that every hop parsed from raw traceroute text carries at least one
probe (otherwise line 75 raises `IndexError` on both sides and the code
would report the hop as differing even against itself). -/
theorem diff_refl (parse : String → ParsedTrace) (a : String)
    (h : WellFormedTrace (parse a)) : diffTraceroutes parse a a = [] := by
  unfold diffTraceroutes diffParsed
  rw [Nat.max_self]
  rw [List.filter_eq_nil_iff]
  intro i hi
  rw [List.mem_range] at hi
  rcases Option.isSome_iff_exists.mp (firstProbeIp_isSome_of_wf h hi) with ⟨p, hp⟩
  simp [hopDiffAt, hp]

/-- Concrete instance of `diff_refl`: a one-hop trace compared against
itself. -/
theorem diff_refl_witness :
    diffTraceroutes (fun _ => ParsedTrace.mk [Hop.mk [Probe.mk (some "10.0.0.1")]])
      "trace" "trace" = [] :=
  diff_refl (fun _ => ParsedTrace.mk [Hop.mk [Probe.mk (some "10.0.0.1")]])
    "trace" (by decide)

/-- C5. Diff marks missing and changed positions: for well-formed parses
(every hop has a first probe, as `trparse` guarantees on raw traceroute
text), an index `i < max(len A, len B)` is reported exactly when one side
lacks a hop at `i` or the first-probe addresses differ; consequently, when
`B` is strictly longer than `A`, every index from `len A` to `len B - 1` is
reported. -/
theorem diff_marks_missing_and_changed (parse : String → ParsedTrace)
    (a b : String) (ha : WellFormedTrace (parse a))
    (hb : WellFormedTrace (parse b)) :
    (∀ i < max (parse a).hops.length (parse b).hops.length,
      (i ∈ diffTraceroutes parse a b ↔
        (parse a).hops.length ≤ i ∨ (parse b).hops.length ≤ i ∨
          firstProbeIp (parse a) i ≠ firstProbeIp (parse b) i)) ∧
    ((parse a).hops.length < (parse b).hops.length →
      ∀ i, (parse a).hops.length ≤ i → i < (parse b).hops.length →
        i ∈ diffTraceroutes parse a b) := by
  constructor
  · intro i hi
    rw [diffTraceroutes, mem_diffParsed]
    rw [hopDiffAt_iff ha hb i]
    exact and_iff_right hi
  · intro _ i hAi hBi
    rw [diffTraceroutes, mem_diffParsed]
    refine ⟨lt_of_lt_of_le hBi (le_max_right _ _), ?_⟩
    unfold hopDiffAt
    rw [firstProbeIp_eq_none_of_ge hAi]

/-- Concrete instance of `diff_marks_missing_and_changed`: `B` extends a
one-hop trace `A` by a second hop, and index 1 is reported. -/
theorem diff_marks_missing_and_changed_witness :
    1 ∈ diffTraceroutes
        (fun s => if s = "A" then ParsedTrace.mk [Hop.mk [Probe.mk (some "a")]]
          else ParsedTrace.mk [Hop.mk [Probe.mk (some "a")],
            Hop.mk [Probe.mk (some "b")]])
        "A" "B" :=
  (diff_marks_missing_and_changed
      (fun s => if s = "A" then ParsedTrace.mk [Hop.mk [Probe.mk (some "a")]]
        else ParsedTrace.mk [Hop.mk [Probe.mk (some "a")],
          Hop.mk [Probe.mk (some "b")]])
      "A" "B" (by decide) (by decide)).2 (by decide) 1 (by decide) (by decide)

/-- C10. Diff output shape: the list of differing hop indices is
duplicate-free, strictly increasing, and every index lies below
`max(len hops_a, len hops_b)`. -/
theorem diff_output_shape (parse : String → ParsedTrace) (a b : String) :
    (diffTraceroutes parse a b).Nodup ∧
    List.Sorted (· < ·) (diffTraceroutes parse a b) ∧
    ∀ i ∈ diffTraceroutes parse a b,
      i < max (parse a).hops.length (parse b).hops.length := by
  refine ⟨(List.nodup_range _).filter _, ?_, ?_⟩
  · exact List.Pairwise.filter _ (List.pairwise_lt_range _)
  · intro i hi
    exact ((mem_diffParsed _ _ i).mp hi).1

/-- C1. Change-gated persistence: when the probe succeeds (a successful
`get_traceroute` yields a non-`None`, non-empty output, which is truthy at
line 230), a snapshot is appended iff the target has no prior snapshot
(bootstrap, line 240) or `diff_traceroutes` of the most recent stored raw
text against the new raw text is non-empty (line 234); with an empty diff
the stored sequence is unchanged (line 238). -/
theorem update_change_gated (parse : String → ParsedTrace)
    (snapshots : List String) (raw : String) (h : raw ≠ "") :
    (updateTracerouteDatabase parse snapshots (some raw) = snapshots ++ [raw] ↔
      snapshots = [] ∨
        ∃ last, snapshots.getLast? = some last ∧
          diffTraceroutes parse last raw ≠ []) ∧
    (∀ last, snapshots.getLast? = some last →
      diffTraceroutes parse last raw = [] →
      updateTracerouteDatabase parse snapshots (some raw) = snapshots) := by
  have hne : snapshots ≠ snapshots ++ [raw] := by
    intro heq
    have := congrArg List.length heq
    simp at this
  simp only [updateTracerouteDatabase]
  rw [if_neg h]
  cases hlast : snapshots.getLast? with
  | none =>
      rw [List.getLast?_eq_none_iff] at hlast
      subst hlast
      refine ⟨iff_of_true rfl (Or.inl rfl), ?_⟩
      intro last hl
      exact absurd hl (by simp)
  | some last =>
      dsimp only
      have hsn : snapshots ≠ [] := by
        intro heq
        rw [heq] at hlast
        exact Option.noConfusion hlast
      by_cases hd : diffTraceroutes parse last raw = []
      · rw [if_pos hd]
        constructor
        · constructor
          · intro heq
            exact absurd heq hne
          · rintro (heq | ⟨l, hl, hdne⟩)
            · exact absurd heq hsn
            · cases hl
              exact absurd hd hdne
        · intro l hl _
          rfl
      · rw [if_neg hd]
        refine ⟨iff_of_true rfl (Or.inr ⟨last, rfl, hd⟩), ?_⟩
        intro l hl hdl
        cases hl
        exact absurd hdl hd

/-- Concrete instance of `update_change_gated`: the bootstrap case appends
the first snapshot. -/
theorem update_change_gated_witness :
    updateTracerouteDatabase (fun _ => ParsedTrace.mk []) [] (some "raw") =
      [] ++ ["raw"] :=
  (update_change_gated (fun _ => ParsedTrace.mk []) [] "raw"
      (by decide)).1.mpr (Or.inl rfl)

lemma doomedIds_length_le (records : List Traceroute) (now days : Int)
    (keep : Nat) :
    (doomedIds records now days keep).length ≤ records.length - keep := by
  simp only [doomedIds, List.length_map, List.length_take]
  exact min_le_left _ _

lemma mem_doomedIds {records : List Traceroute} {now days : Int} {keep : Nat}
    {x : Nat} (hx : x ∈ doomedIds records now days keep) :
    ∃ r ∈ records, r.id = x ∧ r.creation_date < now - days := by
  rcases List.mem_map.mp hx with ⟨r, hr, rfl⟩
  have hr2 := List.mem_reverse.mp (List.mem_of_mem_take hr)
  have hr3 := List.mem_filter.mp hr2
  exact ⟨r, hr3.1, rfl, by simpa using hr3.2⟩

lemma length_filter_mem_le (l : List Traceroute) (banned : List Nat)
    (hnd : (l.map (fun r => r.id)).Nodup) :
    (l.filter (fun r => decide (r.id ∈ banned))).length ≤ banned.length := by
  classical
  have hsub : (l.filter (fun r => decide (r.id ∈ banned))).Sublist l :=
    List.filter_sublist l
  have hndf :
      ((l.filter (fun r => decide (r.id ∈ banned))).map (fun r => r.id)).Nodup :=
    hnd.sublist (hsub.map _)
  have hmem : ∀ x ∈ (l.filter (fun r => decide (r.id ∈ banned))).map
      (fun r => r.id), x ∈ banned := by
    intro x hx
    rcases List.mem_map.mp hx with ⟨r, hr, rfl⟩
    simpa using (List.mem_filter.mp hr).2
  calc (l.filter (fun r => decide (r.id ∈ banned))).length
      = ((l.filter (fun r => decide (r.id ∈ banned))).map
          (fun r => r.id)).length := by rw [List.length_map]
    _ = ((l.filter (fun r => decide (r.id ∈ banned))).map
          (fun r => r.id)).toFinset.card := (List.toFinset_card_of_nodup hndf).symm
    _ ≤ banned.toFinset.card :=
        Finset.card_le_card (fun x hx =>
          List.mem_toFinset.mpr (hmem x (List.mem_toFinset.mp hx)))
    _ ≤ banned.length := List.toFinset_card_le banned

lemma length_filter_not_mem_ge (l : List Traceroute) (banned : List Nat)
    (hnd : (l.map (fun r => r.id)).Nodup) :
    l.length - banned.length ≤
      (l.filter (fun r => decide (r.id ∉ banned))).length := by
  classical
  have hsplit := List.length_eq_length_filter_add (l := l)
    (fun r => decide (r.id ∈ banned))
  have hc : (l.filter (fun r => !(decide (r.id ∈ banned)))) =
      (l.filter (fun r => decide (r.id ∉ banned))) := by
    apply List.filter_congr
    intro r _
    simp
  rw [hc] at hsplit
  have h1 := length_filter_mem_le l banned hnd
  omega

/-- C3. Retention floor and age guard: with distinct row ids (the table's
autoincrement primary key), one prune pass (a) is a no-op when the snapshot
count is at most `keep`, (b) never lowers the count below
`min (previous count) keep`, and (c) never deletes a snapshot at least as
recent as the cutoff `now - days`. -/
theorem retention_floor_and_age_guard (records : List Traceroute)
    (now days : Int) (keep : Nat)
    (hnd : (records.map (fun r => r.id)).Nodup) :
    (records.length ≤ keep →
      (deleteOldTraceroutes records now days keep).1 = records) ∧
    min records.length keep ≤
      (deleteOldTraceroutes records now days keep).1.length ∧
    ∀ r ∈ records, now - days ≤ r.creation_date →
      r ∈ (deleteOldTraceroutes records now days keep).1 := by
  by_cases hk : keep < records.length
  · have hres : (deleteOldTraceroutes records now days keep).1 =
        records.filter
          (fun r => decide (r.id ∉ doomedIds records now days keep)) := by
      unfold deleteOldTraceroutes
      rw [if_pos hk]
    refine ⟨fun hle => absurd hk (Nat.not_lt.mpr hle), ?_, ?_⟩
    · rw [hres]
      have h1 := length_filter_not_mem_ge records
        (doomedIds records now days keep) hnd
      have h2 := doomedIds_length_le records now days keep
      omega
    · intro r hr hage
      rw [hres]
      refine List.mem_filter.mpr ⟨hr, ?_⟩
      rw [decide_eq_true_iff]
      intro hmem
      rcases mem_doomedIds hmem with ⟨d, hd, hid, hdate⟩
      have hdr : d = r :=
        List.inj_on_of_nodup_map hnd hd hr hid
      rw [hdr] at hdate
      exact absurd hage (not_le.mpr hdate)
  · have hres : deleteOldTraceroutes records now days keep = (records, none) := by
      unfold deleteOldTraceroutes
      rw [if_neg hk]
    rw [hres]
    exact ⟨fun _ => rfl, min_le_left _ _, fun r hr _ => hr⟩

/-- Concrete instance of `retention_floor_and_age_guard`: two snapshots,
`keep = 1`, both older than the cutoff — at least one row survives. -/
theorem retention_floor_and_age_guard_witness :
    (([⟨1, 0, "a"⟩, ⟨2, 5, "b"⟩] : List Traceroute).map
      (fun r => r.id)).Nodup ∧
    min 2 1 ≤ (deleteOldTraceroutes [⟨1, 0, "a"⟩, ⟨2, 5, "b"⟩] 10 3 1).1.length :=
  ⟨by decide,
    (retention_floor_and_age_guard [⟨1, 0, "a"⟩, ⟨2, 5, "b"⟩] 10 3 1
      (by decide)).2.1⟩

/-- C2 (code evaluation at the failing input).  Three snapshots with ids
1, 2, 3 (insertion order, so id 1 is the oldest), all older than the cutoff
`now - days = 90`, and `keep = 1`, so two must be deleted.  The subquery
orders eligible rows by `Traceroute.id.desc()` (line 325), so the code
deletes the two *newest* eligible snapshots (ids 3 and 2) and keeps the
oldest (id 1) — whereas oldest-first deletion, as the claim states, would
delete ids 1 and 2 and keep id 3. -/
theorem retention_deletes_newest_eval :
    deleteOldTraceroutes
        [⟨1, 0, "t1"⟩, ⟨2, 1, "t2"⟩, ⟨3, 2, "t3"⟩] 100 10 1 =
      ([⟨1, 0, "t1"⟩], none) ∧
    deleteOldTraceroutes
        [⟨1, 0, "t1"⟩, ⟨2, 1, "t2"⟩, ⟨3, 2, "t3"⟩] 100 10 1 ≠
      ([⟨3, 2, "t3"⟩], none) := by
  exact ⟨by decide, by decide⟩

/-- C7 (counterexample).  With two snapshots, `keep = 1` and both rows older
than the cutoff, the prune pass deletes exactly one snapshot, yet its return
value is `none` (Python `None`) — not the deleted count 1 which the claim
asserts it returns. -/
theorem prune_return_counterexample :
    (deleteOldTraceroutes [⟨1, 0, "t1"⟩, ⟨2, 1, "t2"⟩] 100 10 1).1.length + 1 =
      ([⟨1, 0, "t1"⟩, ⟨2, 1, "t2"⟩] : List Traceroute).length ∧
    (deleteOldTraceroutes [⟨1, 0, "t1"⟩, ⟨2, 1, "t2"⟩] 100 10 1).2 = none ∧
    (deleteOldTraceroutes [⟨1, 0, "t1"⟩, ⟨2, 1, "t2"⟩] 100 10 1).2 ≠ some 1 := by
  exact ⟨by decide, by decide, by decide⟩

/-- C7 (amended).  The prune operation always returns `None`: the body of
`delete_old_traceroutes` ends without a `return` statement, so the deleted
count is only logged (line 328), never returned. -/
theorem prune_returns_none (records : List Traceroute) (now days : Int)
    (keep : Nat) : (deleteOldTraceroutes records now days keep).2 = none := by
  unfold deleteOldTraceroutes
  split <;> rfl

lemma foldl_append_eq_concatLines (f : String → String) :
    ∀ (ls : List String) (acc : String),
      ls.foldl (fun a line => a ++ f line) acc = acc ++ concatLines f ls := by
  intro ls
  induction ls with
  | nil =>
      intro acc
      show acc = acc ++ ""
      simp
  | cons x xs ih =>
      intro acc
      have hc : concatLines f (x :: xs) = f x ++ concatLines f xs := rfl
      rw [List.foldl_cons, ih, hc, String.append_assoc]

lemma concatLines_congr {f g : String → String} (h : ∀ l, f l = g l) :
    ∀ ls, concatLines f ls = concatLines g ls := by
  intro ls
  induction ls with
  | nil => rfl
  | cons x xs ih =>
      show f x ++ concatLines f xs = g x ++ concatLines g xs
      rw [h x, ih]

lemma lineIndex_eq (line : String) :
    lineIndex line =
      ((pySplitWs line).head?.bind pyParseInt).map (fun n => n - 1) := by
  rcases hsp : pySplitWs line with _ | ⟨tok, rest⟩ <;> simp [lineIndex, hsp]

lemma consoleOutputLine_cases (differentHops : List Nat) (c e line : String) :
    (hopLineCond differentHops line ∧
      consoleOutputLine differentHops c e line = c ++ line ++ e ++ "\n") ∨
    (¬ hopLineCond differentHops line ∧
      consoleOutputLine differentHops c e line = line ++ "\n") := by
  cases hx : (pySplitWs line).head?.bind pyParseInt with
  | none =>
      right
      constructor
      · rintro ⟨n, hn, _⟩
        rw [hx] at hn
        exact Option.noConfusion hn
      · unfold consoleOutputLine
        rw [lineIndex_eq, hx]
        rfl
  | some n =>
      by_cases hm : (n - 1) ∈ differentHops.map (fun d => (d : Int))
      · left
        refine ⟨⟨n, hx, hm⟩, ?_⟩
        unfold consoleOutputLine
        rw [lineIndex_eq, hx]
        simp only [Option.map_some']
        rw [if_pos hm]
      · right
        constructor
        · rintro ⟨n', hn', hm'⟩
          rw [hx] at hn'
          cases hn'
          exact hm hm'
        · unfold consoleOutputLine
          rw [lineIndex_eq, hx]
          simp only [Option.map_some']
          rw [if_neg hm]

/-- C6. Renderer highlight exactness: the rendered body is the independent
concatenation of its lines; with an empty diff set every line passes through
unchanged (plus the appended newline of the accumulator format string); with
any diff set, exactly the lines whose first whitespace-delimited token parses
as an integer `n` with `n - 1` in the set are wrapped in the
`color`/`end_color` markers, and every other line passes through unchanged. -/
theorem renderer_highlight_exact (differentHops : List Nat) (c e tr : String) :
    consoleOutput [] c e tr =
      concatLines (fun line => line ++ "\n") (tr.splitOn "\n") ∧
    consoleOutput differentHops c e tr =
      concatLines (consoleOutputLine differentHops c e) (tr.splitOn "\n") ∧
    ∀ line,
      (hopLineCond differentHops line ∧
        consoleOutputLine differentHops c e line = c ++ line ++ e ++ "\n") ∨
      (¬ hopLineCond differentHops line ∧
        consoleOutputLine differentHops c e line = line ++ "\n") := by
  refine ⟨?_, ?_, fun line => consoleOutputLine_cases differentHops c e line⟩
  · have h0 : ∀ line, consoleOutputLine [] c e line = line ++ "\n" := by
      intro line
      unfold consoleOutputLine
      cases lineIndex line with
      | none => rfl
      | some idx => simp
    calc consoleOutput [] c e tr
        = "" ++ concatLines (consoleOutputLine [] c e) (tr.splitOn "\n") :=
          foldl_append_eq_concatLines _ _ ""
      _ = concatLines (fun line => line ++ "\n") (tr.splitOn "\n") := by
          rw [concatLines_congr h0]
          simp
  · calc consoleOutput differentHops c e tr
        = "" ++ concatLines (consoleOutputLine differentHops c e)
            (tr.splitOn "\n") := foldl_append_eq_concatLines _ _ ""
      _ = concatLines (consoleOutputLine differentHops c e) (tr.splitOn "\n") := by
          simp

/-- C8 (code evaluation at the failing input).  A missing `interval` key is
caught (`except KeyError`) and falls back to 3600, and a valid value parses;
but a present non-integer string makes `int()` raise `ValueError`, which
neither the `KeyError` nor the (dead, since `configparser` values are
strings) `TypeError` handler catches, so the exception escapes `execute`
instead of falling back to the default. -/
theorem interval_fallback_eval :
    intervalOf none = Except.ok 3600 ∧
    intervalOf (some "7200") = Except.ok 7200 ∧
    intervalOf (some "three") = Except.error PyErr.valueError := by
  refine ⟨rfl, rfl, rfl⟩

/-- C9. Secondary-config wholesale rejection: whenever the number of
host-directive lines differs from the number of title-directive lines, the
reader returns `None` (line 362) — never a partial subset — and the merge in
`execute` (lines 383-384) leaves the target list unchanged, contributing zero
additional targets. -/
theorem smokeping_wholesale_reject (ls : List String) (base : List HostSpec)
    (h : (ls.filter (fun l => (matchHost l).isSome)).length ≠
         (ls.filter (fun l => (matchTitle l).isSome)).length) :
    readSmokepingConfig ls = none ∧
    mergeHosts base (readSmokepingConfig ls) = base := by
  have h1 : readSmokepingConfig ls = none := by
    unfold readSmokepingConfig
    dsimp only
    simp only [List.length_map]
    exact if_neg h
  refine ⟨h1, ?_⟩
  rw [h1]
  rfl

/-- Concrete instance of `smokeping_wholesale_reject`: three `host=` lines
and two `title=` lines are rejected wholesale. -/
theorem smokeping_wholesale_reject_witness :
    readSmokepingConfig ["host=a", "host=b", "host=c", "title=x", "title=y"] =
      none :=
  (smokeping_wholesale_reject
    ["host=a", "host=b", "host=c", "title=x", "title=y"] [] (by decide)).1

end TracerouteHistory
